import Mathlib

/-!
Verification of the generic object/manager dispatch layer of a GitLab REST
client binding (gitlab/objects.py).  The Python classes are shallowly
embedded: an object's `__dict__` becomes an association list from attribute
names to `PyVal` values, class-level metadata (URL template, permission
flags, attribute lists, managers) becomes a `ClassMeta` record, and each
method of interest is translated into an executable Lean function.  Network
interaction is cut at the transport boundary: the outcome a transport call
would produce is passed in explicitly, and the request an operation would
issue is reified as a `Request` value.
-/

namespace PyGitlab

/-- Values that can appear in a `GitlabObject.__dict__`: JSON scalars and
containers, nested `GitlabObject` instances produced by constructor-type
hydration, `BaseManager` attributes, and the `gitlab.Gitlab` connection
(identified by a numeric identity, since CPython compares such objects by
identity). -/
inductive PyVal where
  | pynone
  | bool (b : Bool)
  | int (n : Int)
  | str (s : String)
  | list (l : List PyVal)
  | dict (d : List (String × PyVal))
  | obj (cls : String) (d : List (String × PyVal))
  | manager (cls : String)
  | conn (c : Nat)
deriving Repr, BEq

/-- Python dict lookup on an association-list representation (first binding
wins; dicts built by `dictSet` have unique keys). -/
def dictGet (d : List (String × PyVal)) (k : String) : Option PyVal :=
  match d.find? (fun kv => kv.1 == k) with
  | some kv => some kv.2
  | none => none

/-- Python `key in dict` / `hasattr` on the instance dictionary. -/
def hasKey (d : List (String × PyVal)) (k : String) : Bool :=
  d.any (fun kv => kv.1 == k)

/-- Python dict assignment `d[k] = v`: overwrite in place when the key is
present, append otherwise (insertion order is preserved). -/
def dictSet (d : List (String × PyVal)) (k : String) (v : PyVal) :
    List (String × PyVal) :=
  if hasKey d k then d.map (fun kv => if kv.1 == k then (k, v) else kv)
  else d ++ [(k, v)]

/-- Python `del d[k]` / `d.pop(k, None)`: remove the binding for `k`. -/
def dictDel (d : List (String × PyVal)) (k : String) : List (String × PyVal) :=
  d.filter (fun kv => kv.1 != k)

/-- Python truthiness of a value, as used by `if not self.canGet`,
`if not self._from_api`, `if not cls._url` and similar guards. -/
def pyTruthy : PyVal → Bool
  | .pynone => false
  | .bool b => b
  | .int n => n != 0
  | .str s => !s.isEmpty
  | .list l => !l.isEmpty
  | .dict d => !d.isEmpty
  | .obj _ _ => true
  | .manager _ => true
  | .conn _ => true

/-- Python `str()` restricted to the scalar values identifiers take in
practice; container and object reprs are not modelled, so the claim
theorems that use this restrict identifier values to scalars. -/
def pyStr : PyVal → Option String
  | .pynone => some "None"
  | .bool b => some (if b then "True" else "False")
  | .int n => some (toString n)
  | .str s => some s
  | _ => none

/-- The `canGet` class attribute takes three values in the source:
`True`, `False`, and the string `'from_list'`. -/
inductive CanGet where
  | yes
  | no
  | fromList
deriving Repr, DecidableEq

/-- Truthiness of `canGet` as used by `if not self.canGet`: the string
`'from_list'` is truthy. -/
def canGetTruthy : CanGet → Bool
  | .no => false
  | _ => true

/-- Truthiness test for `if not cls._url`: `None` (and the never-occurring
empty string) are falsy. -/
def urlFalsy : Option String → Bool
  | none => true
  | some s => s.isEmpty

/-- Static per-resource-type metadata, the class attributes declared on
`GitlabObject` (objects.py:159-209) with the defaults it sets; subclasses
override individual fields.  A manager declaration is
(attribute name, manager class, parent-to-child attribute links). -/
structure ClassMeta where
  url : Option String := none
  canGet : CanGet := .yes
  canList : Bool := true
  canCreate : Bool := true
  canUpdate : Bool := true
  canDelete : Bool := true
  idAttr : String := "id"
  constructorTypes : List (String × String) := []
  managers : List (String × String × List (String × String)) := []
  requiredUrlAttrs : List String := []
  requiredCreateAttrs : List String := []
  optionalCreateAttrs : List String := []
  requiredUpdateAttrs : List String := []
  optionalUpdateAttrs : List String := []

/-- Lookup of a resource type's metadata by class name (the source resolves
nested constructor types by name in `globals()`). -/
abbrev ClassTable := String → ClassMeta

/-- Exceptions the embedded methods can raise. -/
inductive PyError where
  | notImplemented
  | attributeError
  | typeError
  | getError (msg : String)
  | deleteError (msg : String)
  | responseError (errCls : String) (code : Nat)
  | needsNetwork
  | strUnmodeled
deriving Repr, DecidableEq

/-- A request handed to the transport collaborator. -/
inductive Request where
  | listReq (cls : String) (params : List (String × PyVal))
  | deleteReq (cls : String) (id : PyVal) (params : List (String × PyVal))
  | instDeleteReq (cls : String) (params : List (String × PyVal))
deriving Repr, BEq

/-- A constructed `GitlabObject` instance: its class name and its
`__dict__`. -/
structure PyObj where
  cls : String
  dict : List (String × PyVal)
deriving Repr, BEq

/-- Response object returned by the raw verb helpers: status code and the
value `r.json()` would parse. -/
structure Response where
  status_code : Nat
  body : PyVal
deriving Repr, BEq

/-- Lookup in a string-keyed association list such as `_constructorTypes`
or a keyword-argument mapping. -/
def lookupStr (l : List (String × String)) (k : String) : Option String :=
  match l.find? (fun kv => kv.1 == k) with
  | some kv => some kv.2
  | none => none

/-- Attributes `GitlabObject.__init__` (objects.py:360-395) sets before
copying the payload: `self._from_api` and `self.gitlab`. -/
def initialAttrs (conn : Nat) (fromApi : Bool) : List (String × PyVal) :=
  [("_from_api", .bool fromApi), ("gitlab", .conn conn)]

/-- Tail of `GitlabObject.__init__` (objects.py:384-395): copy the converted
payload onto the instance, assign the keyword arguments, default the literal
`id` attribute to `None` when absent, then `_set_managers`
(objects.py:397-400) binds one manager attribute per declaration. -/
def finishInit (t : ClassTable) (conn : Nat) (cls : String) (fromApi : Bool)
    (convData : List (String × PyVal)) (kwargs : List (String × PyVal)) :
    PyObj :=
  let attrs := initialAttrs conn fromApi
  let attrs := convData.foldl (fun a kv => dictSet a kv.1 kv.2) attrs
  let attrs := kwargs.foldl (fun a kv => dictSet a kv.1 kv.2) attrs
  let attrs := if hasKey attrs "id" then attrs else dictSet attrs "id" .pynone
  let attrs := (t cls).managers.foldl
    (fun a m => dictSet a m.1 (.manager m.2.1)) attrs
  ⟨cls, attrs⟩

/-- Outcome of the `data is None/int/str` branch of `__init__`
(objects.py:377-382) at a place where no transport outcome is available
(nested hydration): the `canGet` guard fires, otherwise the network fetch
is not modelled. -/
def initFetchStub (t : ClassTable) (cls : String) : Except PyError PyObj :=
  if !canGetTruthy (t cls).canGet then throw .notImplemented
  else throw .needsNetwork

mutual

/-- GitlabObject._set_from_dict (objects.py:296-305): convert each payload
entry and assign it onto the instance; returns the converted entries in
payload order. -/
def setFromDict (t : ClassTable) (conn : Nat) (cls : String) :
    List (String × PyVal) → Except PyError (List (String × PyVal))
  | [] => pure []
  | (k, v) :: rest => do
      let v2 ← convTop t conn cls k v
      let rest2 ← setFromDict t conn cls rest
      pure ((k, v2) :: rest2)

/-- Conversion of one payload value in `_set_from_dict`: list values are
converted item by item, `None` stays `None`, anything else goes through
`_get_object` (objects.py:290-294), inlined here case by case: a key with a
declared constructor type triggers a nested `__init__` on the value. -/
def convTop (t : ClassTable) (conn : Nat) (cls : String) (k : String) :
    PyVal → Except PyError PyVal
  | .list l => do
      let l2 ← convItems t conn cls k l
      pure (.list l2)
  | .pynone => pure .pynone
  | .dict d =>
      match lookupStr (t cls).constructorTypes k with
      | some ncls => do
          let conv ← setFromDict t conn ncls d
          let o := finishInit t conn ncls false conv []
          pure (.obj o.cls o.dict)
      | none => pure (.dict d)
  | .bool b =>
      match lookupStr (t cls).constructorTypes k with
      | some ncls => do
          let _ ← initFetchStub t ncls
          pure (.bool b)
      | none => pure (.bool b)
  | .int n =>
      match lookupStr (t cls).constructorTypes k with
      | some ncls => do
          let _ ← initFetchStub t ncls
          pure (.int n)
      | none => pure (.int n)
  | .str s =>
      match lookupStr (t cls).constructorTypes k with
      | some ncls => do
          let _ ← initFetchStub t ncls
          pure (.str s)
      | none => pure (.str s)
  | .obj c d =>
      match lookupStr (t cls).constructorTypes k with
      | some _ => throw .attributeError
      | none => pure (.obj c d)
  | .manager c =>
      match lookupStr (t cls).constructorTypes k with
      | some _ => throw .attributeError
      | none => pure (.manager c)
  | .conn c =>
      match lookupStr (t cls).constructorTypes k with
      | some _ => throw .attributeError
      | none => pure (.conn c)

/-- Item-by-item conversion of a list-valued payload entry
(objects.py:298-301). -/
def convItems (t : ClassTable) (conn : Nat) (cls : String) (k : String) :
    List PyVal → Except PyError (List PyVal)
  | [] => pure []
  | i :: rest => do
      let i2 ← convItem t conn cls k i
      let rest2 ← convItems t conn cls k rest
      pure (i2 :: rest2)

/-- GitlabObject._get_object (objects.py:290-294) applied to a list item:
unlike the top-level value case, a `None` item under a constructor-typed key
does reach the nested `__init__` (and would fetch); plain items pass
through unconverted. -/
def convItem (t : ClassTable) (conn : Nat) (cls : String) (k : String) :
    PyVal → Except PyError PyVal
  | .dict d =>
      match lookupStr (t cls).constructorTypes k with
      | some ncls => do
          let conv ← setFromDict t conn ncls d
          let o := finishInit t conn ncls false conv []
          pure (.obj o.cls o.dict)
      | none => pure (.dict d)
  | .pynone =>
      match lookupStr (t cls).constructorTypes k with
      | some ncls => do
          let _ ← initFetchStub t ncls
          pure .pynone
      | none => pure .pynone
  | .bool b =>
      match lookupStr (t cls).constructorTypes k with
      | some ncls => do
          let _ ← initFetchStub t ncls
          pure (.bool b)
      | none => pure (.bool b)
  | .int n =>
      match lookupStr (t cls).constructorTypes k with
      | some ncls => do
          let _ ← initFetchStub t ncls
          pure (.int n)
      | none => pure (.int n)
  | .str s =>
      match lookupStr (t cls).constructorTypes k with
      | some ncls => do
          let _ ← initFetchStub t ncls
          pure (.str s)
      | none => pure (.str s)
  | .list l =>
      match lookupStr (t cls).constructorTypes k with
      | some _ => throw .attributeError
      | none => pure (.list l)
  | .obj c d =>
      match lookupStr (t cls).constructorTypes k with
      | some _ => throw .attributeError
      | none => pure (.obj c d)
  | .manager c =>
      match lookupStr (t cls).constructorTypes k with
      | some _ => throw .attributeError
      | none => pure (.manager c)
  | .conn c =>
      match lookupStr (t cls).constructorTypes k with
      | some _ => throw .attributeError
      | none => pure (.conn c)

end

/-- GitlabObject.__init__ (objects.py:360-395) entered with a dict payload:
a locally constructed, unsaved instance (`_from_api` stays False). -/
def objInitFromDict (t : ClassTable) (conn : Nat) (cls : String)
    (data : List (String × PyVal)) (kwargs : List (String × PyVal)) :
    Except PyError PyObj := do
  let conv ← setFromDict t conn cls data
  pure (finishInit t conn cls false conv kwargs)

/-- GitlabObject.__init__ (objects.py:360-395) entered with `None`, an int
or a string: the `canGet` guard, then the fetch `gl.get` whose successful
payload `resp` is passed in; the instance is server-hydrated
(`_from_api = True`). -/
def objInitFromFetch (t : ClassTable) (conn : Nat) (cls : String)
    (resp : List (String × PyVal)) (kwargs : List (String × PyVal)) :
    Except PyError PyObj := do
  if !canGetTruthy (t cls).canGet then throw .notImplemented
  else do
    let conv ← setFromDict t conn cls resp
    pure (finishInit t conn cls true conv kwargs)

/-- GitlabObject.__init__ dispatch on the `data` argument where no transport
outcome is available: dict payloads build a local instance, scalar data
would trigger a fetch, anything else fails on `data.items()`. -/
def objInitData (t : ClassTable) (conn : Nat) (cls : String) (data : PyVal)
    (kwargs : List (String × PyVal)) : Except PyError PyObj :=
  match data with
  | .dict d => objInitFromDict t conn cls d kwargs
  | .pynone => (initFetchStub t cls).bind (fun o => pure o)
  | .bool _ => (initFetchStub t cls).bind (fun o => pure o)
  | .int _ => (initFetchStub t cls).bind (fun o => pure o)
  | .str _ => (initFetchStub t cls).bind (fun o => pure o)
  | _ => throw .attributeError

/-- A join element must be a Python string. -/
def asStrElem : PyVal → Option String
  | .str s => some s
  | _ => none

/-- Python ",".join over the elements of a list value: defined when every
element is a string (a non-string element makes join raise TypeError). -/
def joinComma (l : List PyVal) : Option String :=
  (l.mapM asStrElem).map (fun parts => String.intercalate "," parts)

/-- Conversion of one attribute value for the outbound payload
(objects.py:223-224): a Python list is comma-joined (TypeError when an
element is not a string), any other value is stored as is. -/
def storeVal : PyVal → Except PyError PyVal
  | .list l =>
      match joinComma l with
      | some s => .ok (.str s)
      | none => .error .typeError
  | v => .ok v

/-- Loop body of `GitlabObject._data_for_gitlab` (objects.py:220-225): for
each declared attribute name, if the instance has it, store its converted
value in the payload. -/
def dataLoop (selfAttrs : List (String × PyVal)) :
    List String → List (String × PyVal) →
    Except PyError (List (String × PyVal))
  | [], data => pure data
  | attrName :: rest, data =>
      match dictGet selfAttrs attrName with
      | none => dataLoop selfAttrs rest data
      | some value =>
          match storeVal value with
          | .ok v2 => dataLoop selfAttrs rest (dictSet data attrName v2)
          | .error e => .error e

/-- GitlabObject._data_for_gitlab (objects.py:211-229): the mapping handed
to `json.dumps`.  Attribute lookup is on the instance dictionary (the
declared attribute names are data attributes). -/
def dataForGitlab (m : ClassMeta) (selfAttrs : List (String × PyVal))
    (extraParameters : List (String × PyVal)) (update : Bool) :
    Except PyError (List (String × PyVal)) := do
  let attributes :=
    if update && (!m.requiredUpdateAttrs.isEmpty || !m.optionalUpdateAttrs.isEmpty)
    then m.requiredUpdateAttrs ++ m.optionalUpdateAttrs
    else m.requiredCreateAttrs ++ m.optionalCreateAttrs
  let attributes := attributes ++ ["sudo", "page", "per_page"]
  let data ← dataLoop selfAttrs attributes []
  pure (extraParameters.foldl (fun d kv => dictSet d kv.1 kv.2) data)

/-- GitlabObject.list (objects.py:231-253), result view: the permission and
URL guards, then the outcome the transport's `gl.list` produces. -/
def classListR (m : ClassMeta) (serverList : Except PyError (List PyObj)) :
    Except PyError (List PyObj) :=
  if !m.canList then throw .notImplemented
  else if urlFalsy m.url then throw .notImplemented
  else serverList

/-- GitlabObject.list (objects.py:231-253), request view: the request
`gl.list(cls, **kwargs)` receives when the guards pass. -/
def classListReq (m : ClassMeta) (cls : String)
    (kwargs : List (String × PyVal)) : Except PyError Request :=
  if !m.canList then throw .notImplemented
  else if urlFalsy m.url then throw .notImplemented
  else pure (.listReq cls kwargs)

/-- Linear scan of the `canGet == 'from_list'` branch of `GitlabObject.get`
(objects.py:276-281): return the first listed object whose identifier
attribute, converted with `str`, equals `str(id)`; a missing identifier
attribute raises AttributeError; no match raises
GitlabGetError("Object not found"). -/
def scanList (idAttr : String) (id : PyVal) :
    List PyObj → Except PyError PyObj
  | [] => throw (.getError "Object not found")
  | o :: rest =>
      match dictGet o.dict idAttr with
      | none => throw .attributeError
      | some v =>
          match pyStr v, pyStr id with
          | some s, some s2 =>
              if s == s2 then pure o else scanList idAttr id rest
          | _, _ => throw .strUnmodeled

/-- The `canGet is True` branch of `GitlabObject.get` (objects.py:273-274):
`cls(gl, id, **kwargs)`, whose `__init__` fetches when `id` is None, an
int, a bool or a string, and treats a dict as payload. -/
def classGetDirect (t : ClassTable) (conn : Nat) (cls : String)
    (serverGet : Except PyError (List (String × PyVal)))
    (id : PyVal) (kwargs : List (String × PyVal)) : Except PyError PyObj :=
  match id with
  | .dict d => objInitFromDict t conn cls d kwargs
  | .pynone => do
      let resp ← serverGet
      objInitFromFetch t conn cls resp kwargs
  | .bool _ => do
      let resp ← serverGet
      objInitFromFetch t conn cls resp kwargs
  | .int _ => do
      let resp ← serverGet
      objInitFromFetch t conn cls resp kwargs
  | .str _ => do
      let resp ← serverGet
      objInitFromFetch t conn cls resp kwargs
  | _ => throw .attributeError

/-- GitlabObject.get (objects.py:255-281).  Transport outcomes are passed
in: `serverList` is what `gl.list` would yield for the from-list scan,
`serverGet` what `gl.get` would yield for a direct fetch. -/
def classGet (t : ClassTable) (conn : Nat) (cls : String)
    (serverList : Except PyError (List PyObj))
    (serverGet : Except PyError (List (String × PyVal)))
    (id : PyVal) (kwargs : List (String × PyVal)) : Except PyError PyObj :=
  match (t cls).canGet with
  | .no => throw .notImplemented
  | .yes => classGetDirect t conn cls serverGet id kwargs
  | .fromList => do
      let objs ← classListR (t cls) serverList
      scanList (t cls).idAttr id objs

/-- A `BaseManager` (objects.py:43-75): the wrapped class, an optional
reference to the parent instance, and the declared parent-to-child
attribute links.  The parent is held by reference; its current state lives
in a heap passed to each call. -/
structure Manager where
  objCls : String
  parentRef : Option Nat
  args : List (String × String)

/-- Loop of `BaseManager._set_parent_args` (objects.py:79-80) over the
declared links, given the parent's current `__dict__`: `getattr` on the
parent is evaluated for every link (AttributeError when absent), then
`setdefault` keeps any caller-supplied value. -/
def setParentArgsAux (pdict : List (String × PyVal)) :
    List (String × String) → List (String × PyVal) →
    Except PyError (List (String × PyVal))
  | [], acc => pure acc
  | (attr, pattr) :: rest, acc =>
      match dictGet pdict pattr with
      | none => throw .attributeError
      | some v =>
          setParentArgsAux pdict rest
            (if hasKey acc attr then acc else acc ++ [(attr, v)])

/-- BaseManager._set_parent_args (objects.py:76-82), reading the parent's
attribute values from the heap at call time. -/
def setParentArgs (heap : Nat → List (String × PyVal)) (m : Manager)
    (kwargs : List (String × PyVal)) :
    Except PyError (List (String × PyVal)) :=
  match m.parentRef with
  | none => pure kwargs
  | some r => setParentArgsAux (heap r) m.args kwargs

/-- BaseManager.get (objects.py:84-101): resolve the parent-derived
arguments, guard on `canGet`, then the class-level get. -/
def managerGet (t : ClassTable) (conn : Nat)
    (heap : Nat → List (String × PyVal)) (m : Manager)
    (serverList : Except PyError (List PyObj))
    (serverGet : Except PyError (List (String × PyVal)))
    (id : PyVal) (kwargs : List (String × PyVal)) : Except PyError PyObj := do
  let args ← setParentArgs heap m kwargs
  if !canGetTruthy (t m.objCls).canGet then throw .notImplemented
  else classGet t conn m.objCls serverList serverGet id args

/-- BaseManager.list (objects.py:103-119), request view: resolve the
parent-derived arguments, guard on `canList`, then the class-level list. -/
def managerListReq (t : ClassTable) (heap : Nat → List (String × PyVal))
    (m : Manager) (kwargs : List (String × PyVal)) :
    Except PyError Request := do
  let args ← setParentArgs heap m kwargs
  if !(t m.objCls).canList then throw .notImplemented
  else classListReq (t m.objCls) m.objCls args

/-- BaseManager.create (objects.py:121-141) with GitlabObject.create
(objects.py:337-358): resolve the parent-derived arguments, guard on
`canCreate`, then build the local instance from `data` plus the resolved
arguments; the `save()` network call is at the transport boundary. -/
def managerCreate (t : ClassTable) (conn : Nat)
    (heap : Nat → List (String × PyVal)) (m : Manager) (data : PyVal)
    (kwargs : List (String × PyVal)) : Except PyError PyObj := do
  let args ← setParentArgs heap m kwargs
  if !(t m.objCls).canCreate then throw .notImplemented
  else objInitData t conn m.objCls data args

/-- BaseManager.delete (objects.py:143-156), request view: resolve the
parent-derived arguments, guard on `canDelete`, then
`gl.delete(obj_cls, id, **args)`. -/
def managerDelete (t : ClassTable) (heap : Nat → List (String × PyVal))
    (m : Manager) (id : PyVal) (kwargs : List (String × PyVal)) :
    Except PyError Request := do
  let args ← setParentArgs heap m kwargs
  if !(t m.objCls).canDelete then throw .notImplemented
  else pure (.deleteReq m.objCls id args)

/-- GitlabObject.delete (objects.py:328-335).  The pair holds the instance
state after the call (the method never mutates it) and either the raised
error or the request `gl.delete(self, **kwargs)` would receive. -/
def instanceDelete (t : ClassTable) (o : PyObj)
    (kwargs : List (String × PyVal)) : PyObj × Except PyError Request :=
  (o,
    if !(t o.cls).canDelete then throw .notImplemented
    else
      match dictGet o.dict "_from_api" with
      | none => throw .attributeError
      | some v =>
          if !pyTruthy v then throw (.deleteError "Object not yet created")
          else pure (.instDeleteReq o.cls kwargs))

/-- Modelled from the spec: `raise_error_from_response` lives in
`gitlab.exceptions`, which is not under src/; per the spec it maps response
status codes outside the expected set to the named error condition
(the default expected code being plain success, 200). -/
def raiseErrorFromResponse (r : Response) (errCls : String)
    (expected : List Nat) : Except PyError Unit :=
  if expected.contains r.status_code then pure ()
  else throw (.responseError errCls r.status_code)

/-- Project.star (objects.py:1700-1712): read `self.id` for the URL, POST,
accept 201 or 304, and return a fresh Project built from the body on 201,
the same instance otherwise. -/
def projectStar (t : ClassTable) (conn : Nat) (o : PyObj) (r : Response) :
    Except PyError PyObj := do
  if !hasKey o.dict "id" then throw .attributeError
  else do
    raiseErrorFromResponse r "GitlabGetError" [201, 304]
    if r.status_code == 201 then objInitData t conn "Project" r.body []
    else pure o

/-- ProjectBranch.protect (objects.py:778-789): read `self.project_id` and
`self.name` for the URL, PUT, and on success either set `self.protected`
to the `protect` argument or `del self.protected` (AttributeError when the
attribute is absent). -/
def branchProtect (o : PyObj) (protect : Bool) (r : Response) :
    Except PyError PyObj := do
  if !hasKey o.dict "project_id" then throw .attributeError
  else if !hasKey o.dict "name" then throw .attributeError
  else do
    raiseErrorFromResponse r "GitlabProtectError" [200]
    if protect then pure ⟨o.cls, dictSet o.dict "protected" (.bool protect)⟩
    else
      if hasKey o.dict "protected" then pure ⟨o.cls, dictDel o.dict "protected"⟩
      else throw .attributeError

/-- ProjectBranch.unprotect (objects.py:791-793). -/
def branchUnprotect (o : PyObj) (r : Response) : Except PyError PyObj :=
  branchProtect o false r

/-- Test for a `BaseManager`-valued attribute, excluded from `as_dict`. -/
def isManagerVal : PyVal → Bool
  | .manager _ => true
  | _ => false

/-- Test for `k[0] == '_'` on an attribute name (attribute names are never
empty, where Python would raise IndexError). -/
def firstUnderscore (k : String) : Bool :=
  match k.data with
  | [] => false
  | c :: _ => c == '_'

/-- Predicate for the dict comprehension in `GitlabObject.as_dict`
(objects.py:483-486): keep attributes that are not managers and whose name
does not start with an underscore. -/
def keepAttr (kv : String × PyVal) : Bool :=
  !firstUnderscore kv.1 && !isManagerVal kv.2

/-- GitlabObject.as_dict (objects.py:483-486). -/
def asDict (d : List (String × PyVal)) : List (String × PyVal) :=
  d.filter keepAttr

/-- Size bound for values found by dict lookup; used for termination of the
equality functions. -/
def sizeOfDictGetLt : ∀ (d : List (String × PyVal)) (k : String) (v : PyVal),
    dictGet d k = some v → sizeOf v < sizeOf d := by
  intro d k v h
  induction d with
  | nil => simp [dictGet] at h
  | cons kv rest ih =>
    obtain ⟨k1, v1⟩ := kv
    by_cases hk : (k1 == k) = true
    · rw [dictGet, List.find?_cons_of_pos _ (by simpa using hk)] at h
      simp only [Option.some.injEq] at h
      subst h
      simp
      omega
    · rw [dictGet, List.find?_cons_of_neg _ (by simpa using hk)] at h
      have := ih (by rw [dictGet]; exact h)
      simp
      omega

/-- Size bound for filtered lists; used for termination of the equality
functions. -/
def sizeOfFilterLe : ∀ (p : String × PyVal → Bool)
    (l : List (String × PyVal)), sizeOf (l.filter p) ≤ sizeOf l := by
  intro p l
  induction l with
  | nil => simp
  | cons kv rest ih =>
    by_cases hp : p kv = true
    · rw [List.filter_cons_of_pos hp]
      simp
      omega
    · rw [List.filter_cons_of_neg (by simpa using hp)]
      simp
      omega

mutual

/-- Python `==` on attribute values, as evaluated inside a dict comparison:
scalars compare by value (with bool/int cross equality as in Python), the
connection object by identity, lists pointwise, dicts by key set and
pointwise value equality, nested `GitlabObject` values through the
(dynamically dispatched) `__eq__`; distinct manager objects compare by
identity and are modelled as unequal. -/
def pyEq : PyVal → PyVal → Bool
  | .pynone, .pynone => true
  | .bool a, .bool b => a == b
  | .bool a, .int b => (if a then (1 : Int) else 0) == b
  | .int a, .bool b => a == (if b then (1 : Int) else 0)
  | .int a, .int b => a == b
  | .str a, .str b => a == b
  | .conn a, .conn b => a == b
  | .list a, .list b => pyEqList a b
  | .dict a, .dict b => pyEqDict a b
  | .obj c1 d1, .obj c2 d2 => gitlabEq c1 d1 c2 d2
  | _, _ => false
termination_by x1 x2 => 3 * (sizeOf x1 + sizeOf x2)
decreasing_by
all_goals simp_wf
all_goals omega

/-- Pointwise list equality. -/
def pyEqList : List PyVal → List PyVal → Bool
  | [], [] => true
  | a :: as2, b :: bs2 => pyEq a b && pyEqList as2 bs2
  | _, _ => false
termination_by x1 x2 => 3 * (sizeOf x1 + sizeOf x2)
decreasing_by
all_goals simp_wf
all_goals omega

/-- The per-item direction of Python dict equality: every binding of the
first dict is matched in the second. -/
def pyEqItems : List (String × PyVal) → List (String × PyVal) → Bool
  | [], _ => true
  | (k, v) :: rest, d2 =>
      (match h : dictGet d2 k with
       | some v2 => pyEq v v2
       | none => false) && pyEqItems rest d2
termination_by x1 x2 => 3 * (sizeOf x1 + sizeOf x2)
decreasing_by
all_goals simp_wf
all_goals try omega
all_goals have hlt := sizeOfDictGetLt d2 k v2 h
all_goals omega

/-- Python dict equality: equal size plus per-item match (with unique keys
on both sides this is equality of the key-value mappings). -/
def pyEqDict (a b : List (String × PyVal)) : Bool :=
  a.length == b.length && pyEqItems a b
termination_by 3 * (sizeOf a + sizeOf b) + 1
decreasing_by
all_goals simp_wf
all_goals try omega

/-- GitlabObject.__eq__ (objects.py:488-491) with the User override
(objects.py:550-557): same dynamic type and equal `as_dict` mappings, the
User comparison first popping `password` from both sides. -/
def gitlabEq (c1 : String) (d1 : List (String × PyVal)) (c2 : String)
    (d2 : List (String × PyVal)) : Bool :=
  if c1 == "User" then
    c2 == c1 && pyEqDict (dictDel (asDict d1) "password")
      (dictDel (asDict d2) "password")
  else
    c2 == c1 && pyEqDict (asDict d1) (asDict d2)
termination_by 3 * (sizeOf d1 + sizeOf d2) + 2
decreasing_by
all_goals simp_wf
all_goals try omega
· have h1 := sizeOfFilterLe keepAttr d1
  have h2 := sizeOfFilterLe keepAttr d2
  have h3 := sizeOfFilterLe (fun kv => kv.1 != "password") (List.filter keepAttr d1)
  have h4 := sizeOfFilterLe (fun kv => kv.1 != "password") (List.filter keepAttr d2)
  simp only [dictDel, asDict] at *
  omega
· have h1 := sizeOfFilterLe keepAttr d1
  have h2 := sizeOfFilterLe keepAttr d2
  simp only [asDict] at *
  omega

end

/-- Equality between two constructed instances: `a == b` dispatches to the
class's `__eq__`. -/
def objEq (a b : PyObj) : Bool :=
  gitlabEq a.cls a.dict b.cls b.dict

/-- GitlabObject.__ne__ (objects.py:493-494): `not self.__eq__(other)`,
with `__eq__` dynamically dispatched. -/
def objNe (a b : PyObj) : Bool :=
  !objEq a b

/-- Metadata for the resource types this development instantiates,
transcribed from their class declarations in objects.py; every other class
name carries the GitlabObject defaults. -/
def classTable : ClassTable
  | "User" =>
      { url := some "/users",
        requiredCreateAttrs := ["email", "username", "name", "password"],
        optionalCreateAttrs := ["skype", "linkedin", "twitter",
          "projects_limit", "extern_uid", "provider", "bio", "admin",
          "can_create_group", "website_url", "confirm", "external"],
        requiredUpdateAttrs := ["email", "username", "name"],
        optionalUpdateAttrs := ["password", "skype", "linkedin", "twitter",
          "projects_limit", "extern_uid", "provider", "bio", "admin",
          "can_create_group", "website_url", "confirm", "external"],
        managers := [("keys", "UserKeyManager", [("user_id", "id")])] }
  | "UserKey" =>
      { url := some "/users/%(user_id)s/keys", canGet := .fromList,
        canUpdate := false, requiredUrlAttrs := ["user_id"],
        requiredCreateAttrs := ["title", "key"] }
  | "CurrentUser" =>
      { url := some "/user", canList := false, canCreate := false,
        canUpdate := false, canDelete := false,
        managers := [("keys", "CurrentUserKeyManager", [("user_id", "id")])] }
  | "CurrentUserKey" =>
      { url := some "/user/keys", canUpdate := false,
        requiredCreateAttrs := ["title", "key"] }
  | "Group" =>
      { url := some "/groups", canUpdate := false,
        constructorTypes := [("projects", "Project")],
        requiredCreateAttrs := ["name", "path"],
        optionalCreateAttrs := ["description", "visibility_level"],
        managers := [("members", "GroupMemberManager", [("group_id", "id")])] }
  | "Project" =>
      { url := some "/projects",
        constructorTypes := [("owner", "User"), ("namespace", "Group")],
        requiredCreateAttrs := ["name"],
        optionalCreateAttrs := ["default_branch", "issues_enabled",
          "wall_enabled", "merge_requests_enabled", "wiki_enabled",
          "snippets_enabled", "public", "visibility_level", "namespace_id",
          "description", "path", "import_url", "builds_enabled",
          "public_builds"],
        optionalUpdateAttrs := ["name", "default_branch", "issues_enabled",
          "wall_enabled", "merge_requests_enabled", "wiki_enabled",
          "snippets_enabled", "public", "visibility_level", "namespace_id",
          "description", "path", "import_url", "builds_enabled",
          "public_builds"],
        managers := [
          ("branches", "ProjectBranchManager", [("project_id", "id")]),
          ("builds", "ProjectBuildManager", [("project_id", "id")]),
          ("commits", "ProjectCommitManager", [("project_id", "id")]),
          ("commitstatuses", "ProjectCommitStatusManager",
            [("project_id", "id")]),
          ("events", "ProjectEventManager", [("project_id", "id")]),
          ("files", "ProjectFileManager", [("project_id", "id")]),
          ("forks", "ProjectForkManager", [("project_id", "id")]),
          ("hooks", "ProjectHookManager", [("project_id", "id")]),
          ("keys", "ProjectKeyManager", [("project_id", "id")]),
          ("issues", "ProjectIssueManager", [("project_id", "id")]),
          ("labels", "ProjectLabelManager", [("project_id", "id")]),
          ("members", "ProjectMemberManager", [("project_id", "id")]),
          ("mergerequests", "ProjectMergeRequestManager",
            [("project_id", "id")]),
          ("milestones", "ProjectMilestoneManager", [("project_id", "id")]),
          ("notes", "ProjectNoteManager", [("project_id", "id")]),
          ("snippets", "ProjectSnippetManager", [("project_id", "id")]),
          ("tags", "ProjectTagManager", [("project_id", "id")]),
          ("triggers", "ProjectTriggerManager", [("project_id", "id")]),
          ("variables", "ProjectVariableManager", [("project_id", "id")])] }
  | "ProjectBranch" =>
      { url := some "/projects/%(project_id)s/repository/branches",
        constructorTypes := [("author", "User"), ("committer", "User")],
        idAttr := "name", canUpdate := false,
        requiredUrlAttrs := ["project_id"],
        requiredCreateAttrs := ["branch_name", "ref"] }
  | "ProjectBuild" =>
      { url := some "/projects/%(project_id)s/builds",
        constructorTypes := [("user", "User"), ("commit", "ProjectCommit")],
        requiredUrlAttrs := ["project_id"], canDelete := false,
        canUpdate := false, canCreate := false }
  | "ProjectCommit" =>
      { url := some "/projects/%(project_id)s/repository/commits",
        canDelete := false, canUpdate := false, canCreate := false,
        requiredUrlAttrs := ["project_id"] }
  | "ProjectTrigger" =>
      { url := some "/projects/%(project_id)s/triggers", canUpdate := false,
        idAttr := "token", requiredUrlAttrs := ["project_id"] }
  | "ProjectVariable" =>
      { url := some "/projects/%(project_id)s/variables", idAttr := "key",
        requiredUrlAttrs := ["project_id"],
        requiredCreateAttrs := ["key", "value"] }
  | _ => {}

/-- A resource descriptor that declares exactly two required-create
attributes and one optional-create attribute (all other metadata at the
GitlabObject defaults), as in the round-trip property of the spec. -/
def createMeta (a b c : String) : ClassMeta :=
  { requiredCreateAttrs := [a, b], optionalCreateAttrs := [c] }

/-!  Dictionary lemmas. -/

theorem hasKey_nil (k : String) : hasKey [] k = false := rfl

theorem hasKey_cons (kv : String × PyVal) (d : List (String × PyVal))
    (k : String) : hasKey (kv :: d) k = (kv.1 == k || hasKey d k) := by
  simp [hasKey]

theorem dictGet_cons (kv : String × PyVal) (d : List (String × PyVal))
    (k : String) :
    dictGet (kv :: d) k = if kv.1 == k then some kv.2 else dictGet d k := by
  by_cases h : (kv.1 == k) = true
  · simp [dictGet, List.find?_cons_of_pos, h]
  · simp only [Bool.not_eq_true] at h
    simp [dictGet, List.find?_cons_of_neg, h]

theorem dictGet_isSome_hasKey (d : List (String × PyVal)) (k : String) :
    (dictGet d k).isSome = hasKey d k := by
  induction d with
  | nil => rfl
  | cons kv rest ih =>
    rw [dictGet_cons, hasKey_cons]
    by_cases h : (kv.1 == k) = true
    · simp [h]
    · simp only [Bool.not_eq_true] at h
      simp [h, ih]

theorem dictGet_map_set_ne (d : List (String × PyVal)) (k k2 : String)
    (v : PyVal) (hne : k2 ≠ k) :
    dictGet (d.map (fun kv => if kv.1 == k then (k, v) else kv)) k2 =
      dictGet d k2 := by
  induction d with
  | nil => rfl
  | cons kv rest ih =>
    simp only [List.map_cons]
    by_cases h : (kv.1 == k) = true
    · have hk1 : kv.1 = k := by simpa using h
      rw [if_pos h, dictGet_cons, dictGet_cons]
      have hf : ((k, v).1 == k2) = false := by
        simp only []
        exact beq_eq_false_iff_ne.mpr (fun hc => hne hc.symm)
      have hf2 : (kv.1 == k2) = false := by
        rw [hk1]
        exact beq_eq_false_iff_ne.mpr (fun hc => hne hc.symm)
      rw [hf, hf2]
      simp only [Bool.false_eq_true, if_false]
      exact ih
    · rw [if_neg h, dictGet_cons, dictGet_cons]
      by_cases h2 : (kv.1 == k2) = true
      · rw [if_pos h2, if_pos h2]
      · rw [if_neg h2, if_neg h2]
        exact ih

theorem dictGet_map_set_self (d : List (String × PyVal)) (k : String)
    (v : PyVal) (hk : hasKey d k = true) :
    dictGet (d.map (fun kv => if kv.1 == k then (k, v) else kv)) k =
      some v := by
  induction d with
  | nil => simp [hasKey] at hk
  | cons kv rest ih =>
    simp only [List.map_cons]
    by_cases h : (kv.1 == k) = true
    · rw [if_pos h, dictGet_cons]
      have : ((k, v).1 == k) = true := by simp
      rw [if_pos this]
    · rw [if_neg h, dictGet_cons, if_neg h]
      apply ih
      rw [hasKey_cons] at hk
      rcases Bool.or_eq_true_iff.mp hk with hc | hc
      · exact absurd hc h
      · exact hc

theorem dictGet_append_single (d : List (String × PyVal)) (k k2 : String)
    (v : PyVal) (hk : hasKey d k = false) :
    dictGet (d ++ [(k, v)]) k2 =
      if k == k2 then some v else dictGet d k2 := by
  induction d with
  | nil =>
    simp only [List.nil_append]
    rw [dictGet_cons]
  | cons kv rest ih =>
    rw [hasKey_cons] at hk
    simp only [Bool.or_eq_false_iff] at hk
    simp only [List.cons_append]
    rw [dictGet_cons, dictGet_cons]
    by_cases h : (kv.1 == k2) = true
    · have hne : (k == k2) = false := by
        have h1 : kv.1 = k2 := by simpa using h
        by_cases hc : (k == k2) = true
        · have h2 : k = k2 := by simpa using hc
          rw [h2, ← h1] at hk
          have := hk.1
          simp at this
        · simpa using hc
      rw [if_pos h, if_pos h, hne]
      simp
    · rw [if_neg h, if_neg h]
      exact ih hk.2

theorem dictGet_dictSet (d : List (String × PyVal)) (k k2 : String)
    (v : PyVal) :
    dictGet (dictSet d k v) k2 = if k == k2 then some v else dictGet d k2 := by
  by_cases hk : hasKey d k = true
  · rw [dictSet, if_pos hk]
    by_cases h : (k == k2) = true
    · have heq : k = k2 := by simpa using h
      subst heq
      rw [dictGet_map_set_self d k v hk]
      simp
    · have hne : k2 ≠ k := by
        intro hc
        subst hc
        simp at h
      rw [dictGet_map_set_ne d k k2 v hne]
      simp only [Bool.not_eq_true] at h
      simp [h]
  · simp only [Bool.not_eq_true] at hk
    rw [dictSet, hk]
    simp only [Bool.false_eq_true, if_false]
    exact dictGet_append_single d k k2 v hk

theorem hasKey_dictSet (d : List (String × PyVal)) (k k2 : String)
    (v : PyVal) :
    hasKey (dictSet d k v) k2 = (hasKey d k2 || k == k2) := by
  have h1 := dictGet_isSome_hasKey (dictSet d k v) k2
  rw [dictGet_dictSet] at h1
  by_cases h : (k == k2) = true
  · simp only [h, if_true, Option.isSome_some] at h1
    simp [h, ← h1]
  · simp only [Bool.not_eq_true] at h
    simp only [h, Bool.false_eq_true, if_false] at h1
    rw [← h1, dictGet_isSome_hasKey, h]
    simp

/-!  Lemmas about folded dict assignment, as done by `finishInit`. -/

theorem foldSet_get_notin (l : List (String × PyVal))
    (acc : List (String × PyVal)) (k : String)
    (h : ∀ kv ∈ l, kv.1 ≠ k) :
    dictGet (l.foldl (fun a kv => dictSet a kv.1 kv.2) acc) k =
      dictGet acc k := by
  induction l generalizing acc with
  | nil => rfl
  | cons kv rest ih =>
    rw [List.foldl_cons]
    rw [ih _ (fun kv2 hm => h kv2 (List.mem_cons_of_mem _ hm))]
    rw [dictGet_dictSet]
    have hf : (kv.1 == k) = false :=
      beq_eq_false_iff_ne.mpr (h kv (List.mem_cons_self _ _))
    simp [hf]

theorem foldSet_get_mem (l : List (String × PyVal))
    (acc : List (String × PyVal)) (k : String) (v : PyVal)
    (hmem : (k, v) ∈ l) (hnd : (l.map Prod.fst).Nodup) :
    dictGet (l.foldl (fun a kv => dictSet a kv.1 kv.2) acc) k = some v := by
  induction l generalizing acc with
  | nil => simp at hmem
  | cons kv rest ih =>
    rw [List.foldl_cons]
    rcases List.mem_cons.mp hmem with heq | hm
    · rw [← heq]
      rw [List.map_cons, ← heq, List.nodup_cons] at hnd
      rw [foldSet_get_notin rest _ k (fun kv2 hm2 => by
        intro hc
        apply hnd.1
        have hmm : kv2.1 ∈ rest.map Prod.fst :=
          List.mem_map_of_mem Prod.fst hm2
        rw [hc] at hmm
        exact hmm)]
      rw [dictGet_dictSet]
      simp
    · rw [List.map_cons, List.nodup_cons] at hnd
      exact ih _ hm hnd.2

theorem foldSet_hasKey (l : List (String × PyVal))
    (acc : List (String × PyVal)) (k : String) :
    hasKey (l.foldl (fun a kv => dictSet a kv.1 kv.2) acc) k =
      (hasKey acc k || l.any (fun kv => kv.1 == k)) := by
  induction l generalizing acc with
  | nil => simp
  | cons kv rest ih =>
    rw [List.foldl_cons, ih, hasKey_dictSet]
    simp [Bool.or_assoc]

theorem mgrFold_get_notin
    (ms : List (String × String × List (String × String)))
    (acc : List (String × PyVal)) (k : String)
    (h : ∀ m ∈ ms, m.1 ≠ k) :
    dictGet (ms.foldl (fun a m => dictSet a m.1 (.manager m.2.1)) acc) k =
      dictGet acc k := by
  induction ms generalizing acc with
  | nil => rfl
  | cons m rest ih =>
    rw [List.foldl_cons]
    rw [ih _ (fun m2 hm => h m2 (List.mem_cons_of_mem _ hm))]
    rw [dictGet_dictSet]
    have hf : (m.1 == k) = false :=
      beq_eq_false_iff_ne.mpr (h m (List.mem_cons_self _ _))
    simp [hf]

theorem mgrFold_hasKey
    (ms : List (String × String × List (String × String)))
    (acc : List (String × PyVal)) (k : String) :
    hasKey (ms.foldl (fun a m => dictSet a m.1 (.manager m.2.1)) acc) k =
      (hasKey acc k || ms.any (fun m => m.1 == k)) := by
  induction ms generalizing acc with
  | nil => simp
  | cons m rest ih =>
    rw [List.foldl_cons, ih, hasKey_dictSet]
    simp [Bool.or_assoc]

/-- Every instance the constructor finishes has the literal `id` attribute
(objects.py:392-393 defaults it to None). -/
theorem finishInit_hasKey_id (t : ClassTable) (conn : Nat) (cls : String)
    (fromApi : Bool) (conv kwargs : List (String × PyVal)) :
    hasKey (finishInit t conn cls fromApi conv kwargs).dict "id" = true := by
  rw [finishInit]
  simp only
  rw [mgrFold_hasKey]
  by_cases h : hasKey (kwargs.foldl (fun a kv => dictSet a kv.1 kv.2)
      (conv.foldl (fun a kv => dictSet a kv.1 kv.2)
        (initialAttrs conn fromApi))) "id" = true
  · rw [if_pos h, h]
    simp
  · rw [if_neg h, hasKey_dictSet]
    simp

/-- A keyword argument lands on the instance unless a manager attribute of
the same name is assigned afterwards. -/
theorem finishInit_get_kwarg (t : ClassTable) (conn : Nat) (cls : String)
    (fromApi : Bool) (conv kwargs : List (String × PyVal)) (k : String)
    (v : PyVal) (hmem : (k, v) ∈ kwargs)
    (hnd : (kwargs.map Prod.fst).Nodup)
    (hmgr : ∀ m ∈ (t cls).managers, m.1 ≠ k) :
    dictGet (finishInit t conn cls fromApi conv kwargs).dict k = some v := by
  rw [finishInit]
  simp only
  rw [mgrFold_get_notin _ _ _ hmgr]
  have hk : dictGet (kwargs.foldl (fun a kv => dictSet a kv.1 kv.2)
      (conv.foldl (fun a kv => dictSet a kv.1 kv.2)
        (initialAttrs conn fromApi))) k = some v :=
    foldSet_get_mem kwargs _ k v hmem hnd
  by_cases h : hasKey (kwargs.foldl (fun a kv => dictSet a kv.1 kv.2)
      (conv.foldl (fun a kv => dictSet a kv.1 kv.2)
        (initialAttrs conn fromApi))) "id" = true
  · rw [if_pos h]
    exact hk
  · rw [if_neg h, dictGet_dictSet]
    have hne : ("id" == k) = false := by
      by_cases hc : ("id" == k) = true
      · have : "id" = k := by simpa using hc
        subst this
        rw [← dictGet_isSome_hasKey, hk] at h
        simp at h
      · simpa using hc
    simp [hne]
    exact hk

theorem hasKey_eq_keys (d : List (String × PyVal)) (k : String) :
    hasKey d k = (d.map Prod.fst).any (fun s => s == k) := by
  induction d with
  | nil => rfl
  | cons kv rest ih =>
    rw [hasKey_cons, ih]
    simp

/-- Payload conversion preserves the attribute names, in order
(objects.py:296-305 assigns `self.__dict__[k]` for each payload key `k`). -/
theorem setFromDict_keys (t : ClassTable) (conn : Nat) (cls : String)
    (data conv : List (String × PyVal))
    (h : setFromDict t conn cls data = .ok conv) :
    conv.map Prod.fst = data.map Prod.fst := by
  induction data generalizing conv with
  | nil =>
    rw [setFromDict] at h
    cases h
    rfl
  | cons kv rest ih =>
    obtain ⟨k1, v1⟩ := kv
    rw [setFromDict] at h
    cases hcv : convTop t conn cls k1 v1 with
    | error e =>
      rw [hcv] at h
      simp only [Bind.bind, Except.bind, Functor.map, Except.map] at h
      exact Except.noConfusion h
    | ok v2 =>
      rw [hcv] at h
      cases hrest : setFromDict t conn cls rest with
      | error e =>
        rw [hrest] at h
        simp only [Bind.bind, Except.bind, Functor.map, Except.map] at h
        exact Except.noConfusion h
      | ok rest2 =>
        rw [hrest] at h
        simp only [Bind.bind, Except.bind, Functor.map, Except.map,
          Pure.pure, Except.pure, Except.ok.injEq] at h
        rw [← h]
        simp only [List.map_cons]
        rw [ih rest2 hrest]

theorem dictGet_append_left (d l2 : List (String × PyVal)) (k : String)
    (h : hasKey d k = true) : dictGet (d ++ l2) k = dictGet d k := by
  induction d with
  | nil => simp [hasKey] at h
  | cons kv rest ih =>
    simp only [List.cons_append]
    rw [dictGet_cons, dictGet_cons]
    by_cases hh : (kv.1 == k) = true
    · rw [if_pos hh, if_pos hh]
    · rw [if_neg hh, if_neg hh]
      rw [hasKey_cons] at h
      rcases Bool.or_eq_true_iff.mp h with hc | hc
      · exact absurd hc hh
      · exact ih hc

theorem hasKey_append (d l2 : List (String × PyVal)) (k : String) :
    hasKey (d ++ l2) k = (hasKey d k || hasKey l2 k) := by
  simp [hasKey]

/-- Bindings already present in the accumulator survive the
`_set_parent_args` loop untouched (`setdefault` never overwrites). -/
theorem setParentArgsAux_preserves (pdict : List (String × PyVal))
    (links : List (String × String)) (acc res : List (String × PyVal))
    (a : String) (hin : hasKey acc a = true)
    (h : setParentArgsAux pdict links acc = .ok res) :
    dictGet res a = dictGet acc a := by
  induction links generalizing acc with
  | nil =>
    rw [setParentArgsAux] at h
    cases h
    rfl
  | cons link rest ih =>
    obtain ⟨attr, pattr⟩ := link
    rw [setParentArgsAux] at h
    cases hp : dictGet pdict pattr with
    | none =>
      rw [hp] at h
      exact Except.noConfusion h
    | some v =>
      rw [hp] at h
      dsimp only at h
      by_cases hk : hasKey acc attr = true
      · rw [if_pos hk] at h
        exact ih acc hin h
      · rw [if_neg hk] at h
        have hin2 : hasKey (acc ++ [(attr, v)]) a = true := by
          rw [hasKey_append, hin]
          simp
        rw [ih _ hin2 h]
        exact dictGet_append_left acc [(attr, v)] a hin

/-- A link whose child attribute the caller did not supply injects the
parent's current attribute value. -/
theorem setParentArgsAux_default (pdict : List (String × PyVal))
    (links : List (String × String)) (acc res : List (String × PyVal))
    (a pa : String) (hnd : (links.map Prod.fst).Nodup)
    (hmem : (a, pa) ∈ links) (hout : hasKey acc a = false)
    (h : setParentArgsAux pdict links acc = .ok res) :
    dictGet res a = dictGet pdict pa := by
  induction links generalizing acc with
  | nil => simp at hmem
  | cons link rest ih =>
    obtain ⟨attr, pattr⟩ := link
    rw [setParentArgsAux] at h
    cases hp : dictGet pdict pattr with
    | none =>
      rw [hp] at h
      exact Except.noConfusion h
    | some v =>
      rw [hp] at h
      dsimp only at h
      rcases List.mem_cons.mp hmem with heq | hm
      · have ha : a = attr := congrArg Prod.fst heq
        have hpa : pa = pattr := congrArg Prod.snd heq
        subst ha
        subst hpa
        rw [if_neg (by rw [hout]; simp)] at h
        have hin2 : hasKey (acc ++ [(a, v)]) a = true := by
          rw [hasKey_append]
          simp [hasKey]
        rw [setParentArgsAux_preserves pdict rest _ res a hin2 h]
        rw [dictGet_append_single acc a a v hout, hp]
        simp
      · rw [List.map_cons, List.nodup_cons] at hnd
        have hne : attr ≠ a := by
          intro hc
          apply hnd.1
          have hmm : a ∈ rest.map Prod.fst :=
            List.mem_map_of_mem Prod.fst hm
          rw [hc]
          exact hmm
        by_cases hk : hasKey acc attr = true
        · rw [if_pos hk] at h
          exact ih acc hnd.2 hm hout h
        · rw [if_neg hk] at h
          have hout2 : hasKey (acc ++ [(attr, v)]) a = false := by
            rw [hasKey_append, hout]
            simp only [Bool.false_or]
            rw [hasKey_cons]
            simp only [hasKey_nil, Bool.or_false]
            exact beq_eq_false_iff_ne.mpr hne
          exact ih _ hnd.2 hm hout2 h

/-- Keys of the serialized payload: the keys already in the accumulator
plus those declared attribute names the instance actually has. -/
theorem dataLoop_hasKey (selfAttrs : List (String × PyVal))
    (attrs : List String) (data0 out : List (String × PyVal)) (k : String)
    (h : dataLoop selfAttrs attrs data0 = .ok out) :
    hasKey out k =
      (hasKey data0 k ||
        (attrs.any (fun s => s == k) && hasKey selfAttrs k)) := by
  induction attrs generalizing data0 with
  | nil =>
    rw [dataLoop] at h
    cases h
    simp
  | cons a rest ih =>
    rw [dataLoop] at h
    cases hl : dictGet selfAttrs a with
    | none =>
      rw [hl] at h
      dsimp only at h
      rw [ih _ h, List.any_cons]
      by_cases hak : (a == k) = true
      · have : a = k := by simpa using hak
        subst this
        have hs : hasKey selfAttrs a = false := by
          rw [← dictGet_isSome_hasKey, hl]
          rfl
        rw [hs]
        simp
      · simp only [Bool.not_eq_true] at hak
        rw [hak]
        simp
    | some va =>
      rw [hl] at h
      dsimp only at h
      cases hsv : storeVal va with
      | error e =>
        rw [hsv] at h
        exact Except.noConfusion h
      | ok wa =>
        rw [hsv] at h
        dsimp only at h
        rw [ih _ h, hasKey_dictSet, List.any_cons]
        by_cases hak : (a == k) = true
        · have hae : a = k := by simpa using hak
          subst hae
          have hs : hasKey selfAttrs a = true := by
            rw [← dictGet_isSome_hasKey, hl]
            rfl
          rw [hs, hak]
          simp
        · simp only [Bool.not_eq_true] at hak
          rw [hak]
          simp

/-- Values of the serialized payload: a declared attribute the instance
has is stored (converted) in the payload. -/
theorem dataLoop_get (selfAttrs : List (String × PyVal))
    (attrs : List String) (data0 out : List (String × PyVal)) (k : String)
    (v w : PyVal) (hk : dictGet selfAttrs k = some v)
    (hw : storeVal v = .ok w)
    (hstart : attrs.any (fun s => s == k) = true ∨ dictGet data0 k = some w)
    (h : dataLoop selfAttrs attrs data0 = .ok out) :
    dictGet out k = some w := by
  induction attrs generalizing data0 with
  | nil =>
    rw [dataLoop] at h
    cases h
    rcases hstart with hc | hc
    · simp at hc
    · exact hc
  | cons a rest ih =>
    rw [dataLoop] at h
    cases hl : dictGet selfAttrs a with
    | none =>
      rw [hl] at h
      dsimp only at h
      have hak : (a == k) = false := by
        by_cases hc : (a == k) = true
        · have : a = k := by simpa using hc
          subst this
          rw [hl] at hk
          exact Option.noConfusion hk
        · simpa using hc
      refine ih _ ?_ h
      rcases hstart with hs | hs
      · rw [List.any_cons, hak] at hs
        simp only [Bool.false_or] at hs
        exact Or.inl hs
      · exact Or.inr hs
    | some va =>
      rw [hl] at h
      dsimp only at h
      cases hsv : storeVal va with
      | error e =>
        rw [hsv] at h
        exact Except.noConfusion h
      | ok wa =>
        rw [hsv] at h
        dsimp only at h
        refine ih _ ?_ h
        by_cases hak : (a == k) = true
        · have hae : a = k := by simpa using hak
          subst hae
          rw [hl] at hk
          injection hk with hkv
          subst hkv
          rw [hsv] at hw
          injection hw with hww
          subst hww
          refine Or.inr ?_
          rw [dictGet_dictSet]
          simp
        · simp only [Bool.not_eq_true] at hak
          rcases hstart with hs | hs
          · rw [List.any_cons, hak] at hs
            simp only [Bool.false_or] at hs
            exact Or.inl hs
          · refine Or.inr ?_
            rw [dictGet_dictSet]
            simp only [hak, Bool.false_eq_true, if_false]
            exact hs

/-- The from-list scan returns the first object whose string-converted
identifier matches, and NotFound when none does (identifier values
restricted to scalars). -/
theorem scanList_eq_find (idAttr : String) (id : PyVal) (objs : List PyObj)
    (hid : (pyStr id).isSome = true)
    (hobjs : ∀ o ∈ objs, ∃ v, dictGet o.dict idAttr = some v ∧
      (pyStr v).isSome = true) :
    scanList idAttr id objs =
      match objs.find?
          (fun o => (dictGet o.dict idAttr).bind pyStr == pyStr id) with
      | some o => .ok o
      | none => .error (.getError "Object not found") := by
  induction objs with
  | nil => rfl
  | cons o rest ih =>
    obtain ⟨v, hv, hvs⟩ := hobjs o (List.mem_cons_self _ _)
    obtain ⟨s, hs⟩ := Option.isSome_iff_exists.mp hvs
    obtain ⟨s2, hs2⟩ := Option.isSome_iff_exists.mp hid
    rw [scanList, hv]
    dsimp only
    rw [hs, hs2]
    dsimp only
    rw [hs2] at ih
    by_cases heq : (s == s2) = true
    · rw [if_pos heq]
      have hp : ((dictGet o.dict idAttr).bind pyStr == some s2) = true := by
        rw [hv]
        dsimp only [Option.bind]
        rw [hs]
        exact heq
      rw [@List.find?_cons_of_pos PyObj
        (fun o2 => (dictGet o2.dict idAttr).bind pyStr == some s2) o rest hp]
      rfl
    · rw [if_neg heq]
      rw [@List.find?_cons_of_neg PyObj
        (fun o2 => (dictGet o2.dict idAttr).bind pyStr == some s2) o rest (by
        show ¬((dictGet o.dict idAttr).bind pyStr == some s2) = true
        rw [hv]
        dsimp only [Option.bind]
        rw [hs]
        simpa using heq)]
      exact ih (fun o2 ho2 => hobjs o2 (List.mem_cons_of_mem _ ho2))

theorem hasKey_dictDel_self (d : List (String × PyVal)) (k : String) :
    hasKey (dictDel d k) k = false := by
  induction d with
  | nil => rfl
  | cons kv rest ih =>
    rw [dictDel, List.filter]
    by_cases h : (kv.1 == k) = true
    · have : (kv.1 != k) = false := by simp [bne, h]
      rw [this]
      exact ih
    · have : (kv.1 != k) = true := by
        simp only [Bool.not_eq_true] at h
        simp [bne, h]
      rw [this, hasKey_cons]
      simp only [Bool.not_eq_true] at h
      rw [h]
      simpa using ih

/-- Claim C6: calling the instance-level delete on a local (never
server-hydrated) instance raises before any network call: no request is
produced, the instance state is unchanged, and when the type permits
deletion the raised condition is GitlabDeleteError. -/
theorem claim6_local_delete (t : ClassTable) (o : PyObj)
    (kwargs : List (String × PyVal))
    (hlocal : dictGet o.dict "_from_api" = some (.bool false)) :
    (instanceDelete t o kwargs).1 = o ∧
    (∀ req, (instanceDelete t o kwargs).2 ≠ .ok req) ∧
    ((t o.cls).canDelete = true →
      (instanceDelete t o kwargs).2 =
        .error (.deleteError "Object not yet created")) := by
  refine ⟨rfl, ?_, ?_⟩
  · intro req
    rw [instanceDelete]
    dsimp only
    by_cases hcd : (t o.cls).canDelete = true
    · rw [hcd]
      simp only [Bool.not_true, Bool.false_eq_true, if_false]
      rw [hlocal]
      dsimp only [pyTruthy]
      intro hcon
      exact Except.noConfusion hcon
    · simp only [Bool.not_eq_true] at hcd
      rw [hcd]
      simp only [Bool.not_false, if_true]
      intro hcon
      exact Except.noConfusion hcon
  · intro hcd
    rw [instanceDelete]
    dsimp only
    rw [hcd]
    simp only [Bool.not_true, Bool.false_eq_true, if_false]
    rw [hlocal]
    rfl

/-- Witness for C6: a local ProjectBranch instance. -/
theorem claim6_witness :
    (instanceDelete classTable
      ⟨"ProjectBranch", [("_from_api", .bool false), ("gitlab", .conn 0),
        ("name", .str "m"), ("id", .pynone)]⟩ []).2 =
      .error (.deleteError "Object not yet created") := by
  have h := claim6_local_delete classTable
    ⟨"ProjectBranch", [("_from_api", .bool false), ("gitlab", .conn 0),
      ("name", .str "m"), ("id", .pynone)]⟩ [] rfl
  exact h.2.2 rfl

/-- Claim C7: when listing is disallowed or no URL template is defined,
the class-level list and the manager-level list raise NotImplemented and
no request reaches the transport. -/
theorem claim7_list_guard (t : ClassTable)
    (heap : Nat → List (String × PyVal)) (m : Manager) (cls : String)
    (kwargs args : List (String × PyVal))
    (serverList : Except PyError (List PyObj))
    (hflag : (t cls).canList = false ∨ urlFalsy (t cls).url = true) :
    classListReq (t cls) cls kwargs = .error .notImplemented ∧
    classListR (t cls) serverList = .error .notImplemented ∧
    (∀ req, classListReq (t cls) cls kwargs ≠ .ok req) ∧
    (m.objCls = cls → setParentArgs heap m kwargs = .ok args →
      managerListReq t heap m kwargs = .error .notImplemented) := by
  have h1 : ∀ ps : List (String × PyVal),
      classListReq (t cls) cls ps = .error .notImplemented := by
    intro ps
    rw [classListReq]
    rcases hflag with hf | hf
    · rw [hf]
      rfl
    · rw [hf]
      by_cases hcl : (t cls).canList = true
      · rw [hcl]
        rfl
      · simp only [Bool.not_eq_true] at hcl
        rw [hcl]
        rfl
  have h2 : classListR (t cls) serverList = .error .notImplemented := by
    rw [classListR]
    rcases hflag with hf | hf
    · rw [hf]
      rfl
    · rw [hf]
      by_cases hcl : (t cls).canList = true
      · rw [hcl]
        rfl
      · simp only [Bool.not_eq_true] at hcl
        rw [hcl]
        rfl
  refine ⟨h1 kwargs, h2, ?_, ?_⟩
  · intro req
    rw [h1 kwargs]
    intro hcon
    exact Except.noConfusion hcon
  · intro hcls hargs
    rw [managerListReq, hargs]
    simp only [Bind.bind, Except.bind]
    rw [hcls]
    rcases hflag with hf | hf
    · rw [hf]
      rfl
    · by_cases hcl : (t cls).canList = true
      · rw [hcl]
        simp only [Bool.not_true, Bool.false_eq_true, if_false]
        exact h1 args
      · simp only [Bool.not_eq_true] at hcl
        rw [hcl]
        rfl

/-- Witness for C7: CurrentUser forbids listing. -/
theorem claim7_witness :
    classListReq (classTable "CurrentUser") "CurrentUser" [] =
      .error .notImplemented ∧
    managerListReq classTable (fun r => [])
      ⟨"CurrentUser", none, []⟩ [] = .error .notImplemented := by
  have h := claim7_list_guard classTable (fun r => [])
    ⟨"CurrentUser", none, []⟩ "CurrentUser" [] [] (.ok [])
    (Or.inl rfl)
  exact ⟨h.1, h.2.2.2 rfl rfl⟩

/-- Claim C10: a successful protect(True) leaves the branch with
`protected = True`, a successful protect(False) / unprotect removes the
`protected` attribute entirely, and unprotect is protect(False). -/
theorem claim10_protect (o : PyObj) (r : Response) :
    (∀ o2, branchProtect o true r = .ok o2 →
      dictGet o2.dict "protected" = some (.bool true)) ∧
    (∀ o3, branchProtect o false r = .ok o3 →
      hasKey o3.dict "protected" = false) ∧
    branchUnprotect o r = branchProtect o false r := by
  refine ⟨?_, ?_, rfl⟩
  · intro o2 h
    rw [branchProtect] at h
    by_cases h1 : hasKey o.dict "project_id" = true
    · rw [if_neg (by rw [h1]; simp)] at h
      by_cases h2 : hasKey o.dict "name" = true
      · rw [if_neg (by rw [h2]; simp)] at h
        simp only [Bind.bind, Except.bind] at h
        cases hr : raiseErrorFromResponse r "GitlabProtectError" [200] with
        | error e =>
          rw [hr] at h
          exact Except.noConfusion h
        | ok u =>
          rw [hr] at h
          dsimp only at h
          rw [if_pos trivial] at h
          injection h with h3
          rw [← h3]
          dsimp only
          rw [dictGet_dictSet]
          simp
      · simp only [Bool.not_eq_true] at h2
        rw [if_pos (by rw [h2]; simp)] at h
        exact Except.noConfusion h
    · simp only [Bool.not_eq_true] at h1
      rw [if_pos (by rw [h1]; simp)] at h
      exact Except.noConfusion h
  · intro o3 h
    rw [branchProtect] at h
    by_cases h1 : hasKey o.dict "project_id" = true
    · rw [if_neg (by rw [h1]; simp)] at h
      by_cases h2 : hasKey o.dict "name" = true
      · rw [if_neg (by rw [h2]; simp)] at h
        simp only [Bind.bind, Except.bind] at h
        cases hr : raiseErrorFromResponse r "GitlabProtectError" [200] with
        | error e =>
          rw [hr] at h
          exact Except.noConfusion h
        | ok u =>
          rw [hr] at h
          dsimp only at h
          rw [if_neg (by simp : ¬false = true)] at h
          by_cases h4 : hasKey o.dict "protected" = true
          · rw [if_pos h4] at h
            injection h with h3
            rw [← h3]
            dsimp only
            exact hasKey_dictDel_self o.dict "protected"
          · rw [if_neg h4] at h
            exact Except.noConfusion h
      · simp only [Bool.not_eq_true] at h2
        rw [if_pos (by rw [h2]; simp)] at h
        exact Except.noConfusion h
    · simp only [Bool.not_eq_true] at h1
      rw [if_pos (by rw [h1]; simp)] at h
      exact Except.noConfusion h

/-- Witness for C10: protect then unprotect a concrete branch. -/
theorem claim10_witness :
    dictGet (dictSet [("project_id", PyVal.int 1), ("name", PyVal.str "m")]
      "protected" (.bool true)) "protected" = some (.bool true) ∧
    hasKey (dictDel [("project_id", PyVal.int 1), ("name", PyVal.str "m"),
      ("protected", PyVal.bool true)] "protected") "protected" = false := by
  have h := claim10_protect
    ⟨"ProjectBranch", [("project_id", .int 1), ("name", .str "m")]⟩
    ⟨200, .pynone⟩
  have h2 := claim10_protect
    ⟨"ProjectBranch", [("project_id", .int 1), ("name", .str "m"),
      ("protected", .bool true)]⟩ ⟨200, .pynone⟩
  exact ⟨h.1 ⟨"ProjectBranch", dictSet [("project_id", .int 1),
      ("name", .str "m")] "protected" (.bool true)⟩ rfl,
    h2.2.1 ⟨"ProjectBranch", dictDel [("project_id", .int 1),
      ("name", .str "m"), ("protected", .bool true)] "protected"⟩ rfl⟩

/-- Claim C1: for a resource type whose get permission is 'from_list', the
class-level get fetches the full list and returns the first listed object
whose string-converted identifier attribute equals the string conversion
of the requested id; with no match it raises
GitlabGetError("Object not found") even though the list call itself
succeeded (identifier values restricted to scalars). -/
theorem claim1_from_list_get (t : ClassTable) (conn : Nat) (cls : String)
    (serverGet : Except PyError (List (String × PyVal)))
    (objs : List PyObj) (id : PyVal) (kwargs : List (String × PyVal))
    (hfrom : (t cls).canGet = .fromList)
    (hcanList : (t cls).canList = true)
    (hurl : urlFalsy (t cls).url = false)
    (hid : (pyStr id).isSome = true)
    (hobjs : ∀ o ∈ objs, ∃ v, dictGet o.dict (t cls).idAttr = some v ∧
      (pyStr v).isSome = true) :
    classGet t conn cls (.ok objs) serverGet id kwargs =
      match objs.find?
          (fun o => (dictGet o.dict (t cls).idAttr).bind pyStr ==
            pyStr id) with
      | some o => .ok o
      | none => .error (.getError "Object not found") := by
  rw [classGet, hfrom]
  dsimp only
  rw [classListR, hcanList]
  simp only [Bool.not_true, Bool.false_eq_true, if_false]
  rw [hurl]
  simp only [Bool.false_eq_true, if_false, Bind.bind, Except.bind]
  exact scanList_eq_find (t cls).idAttr id objs hid hobjs

/-- Witness for C1: the UserKey resource (canGet = 'from_list'). -/
theorem claim1_witness :
    classGet classTable 0 "UserKey"
      (.ok [⟨"UserKey", [("id", .int 1), ("title", .str "k1")]⟩])
      (.error .needsNetwork) (.int 1) [] =
      .ok ⟨"UserKey", [("id", .int 1), ("title", .str "k1")]⟩ ∧
    classGet classTable 0 "UserKey"
      (.ok [⟨"UserKey", [("id", .int 1), ("title", .str "k1")]⟩])
      (.error .needsNetwork) (.int 2) [] =
      .error (.getError "Object not found") := by
  constructor
  · rw [claim1_from_list_get classTable 0 "UserKey" (.error .needsNetwork)
      [⟨"UserKey", [("id", .int 1), ("title", .str "k1")]⟩] (.int 1) []
      rfl rfl rfl rfl (by
        intro o ho
        rw [List.mem_singleton] at ho
        subst ho
        exact ⟨.int 1, rfl, rfl⟩)]
    rfl
  · rw [claim1_from_list_get classTable 0 "UserKey" (.error .needsNetwork)
      [⟨"UserKey", [("id", .int 1), ("title", .str "k1")]⟩] (.int 2) []
      rfl rfl rfl rfl (by
        intro o ho
        rw [List.mem_singleton] at ho
        subst ho
        exact ⟨.int 1, rfl, rfl⟩)]
    rfl

/-- Counterexample to C3 as stated: ProjectTrigger overrides idAttr to
'token', yet an instance constructed from a payload without 'token' has no
'token' attribute afterwards (only the literal 'id' is defaulted). -/
theorem claim3_counterexample :
    objInitFromDict classTable 0 "ProjectTrigger" [("project_id", .int 1)]
      [] = .ok ⟨"ProjectTrigger", [("_from_api", .bool false),
        ("gitlab", .conn 0), ("project_id", .int 1), ("id", .pynone)]⟩ ∧
    (classTable "ProjectTrigger").idAttr = "token" ∧
    hasKey [("_from_api", PyVal.bool false), ("gitlab", PyVal.conn 0),
      ("project_id", PyVal.int 1), ("id", PyVal.pynone)] "token" = false :=
  ⟨rfl, rfl, rfl⟩

/-- Claim C3 (amended): after every successful construction - local or
server-hydrated - the literal `id` attribute is present, and it is
defaulted to None when neither the payload, the keyword arguments nor a
manager declaration names `id`; an overridden identifier attribute such as
'token' is only present when the payload or keyword arguments supply it. -/
theorem claim3_id_attr (t : ClassTable) (conn : Nat) (cls : String)
    (data kwargs : List (String × PyVal)) (o o2 : PyObj)
    (h : objInitFromDict t conn cls data kwargs = .ok o)
    (h2 : objInitFromFetch t conn cls data kwargs = .ok o2) :
    hasKey o.dict "id" = true ∧ hasKey o2.dict "id" = true ∧
    (hasKey data "id" = false →
      (∀ kv ∈ kwargs, kv.1 ≠ "id") →
      (∀ m ∈ (t cls).managers, m.1 ≠ "id") →
      dictGet o.dict "id" = some .pynone) := by
  rw [objInitFromDict] at h
  cases hconv : setFromDict t conn cls data with
  | error e =>
    rw [hconv] at h
    exact Except.noConfusion h
  | ok conv =>
    rw [hconv] at h
    simp only [Bind.bind, Except.bind, Pure.pure, Except.pure,
      Except.ok.injEq] at h
    rw [objInitFromFetch] at h2
    by_cases hcg : canGetTruthy (t cls).canGet = true
    · rw [if_neg (by rw [hcg]; simp)] at h2
      rw [hconv] at h2
      simp only [Bind.bind, Except.bind, Pure.pure, Except.pure,
        Except.ok.injEq] at h2
      refine ⟨?_, ?_, ?_⟩
      · rw [← h]
        exact finishInit_hasKey_id t conn cls false conv kwargs
      · rw [← h2]
        exact finishInit_hasKey_id t conn cls true conv kwargs
      · intro hdata hkw hmgr
        rw [← h, finishInit]
        dsimp only
        rw [mgrFold_get_notin _ _ _ hmgr]
        have hconvid : hasKey conv "id" = false := by
          rw [hasKey_eq_keys, setFromDict_keys t conn cls data conv hconv,
            ← hasKey_eq_keys]
          exact hdata
        have hinit : hasKey (initialAttrs conn false) "id" = false := rfl
        have ha1 : hasKey (conv.foldl (fun a kv => dictSet a kv.1 kv.2)
            (initialAttrs conn false)) "id" = false := by
          rw [foldSet_hasKey, hinit]
          simp only [Bool.false_or]
          exact hconvid
        have ha2 : hasKey (kwargs.foldl (fun a kv => dictSet a kv.1 kv.2)
            (conv.foldl (fun a kv => dictSet a kv.1 kv.2)
              (initialAttrs conn false))) "id" = false := by
          rw [foldSet_hasKey, ha1]
          simp only [Bool.false_or]
          rw [List.any_eq_false]
          intro kv hkv
          simp only [Bool.not_eq_true, beq_eq_false_iff_ne]
          exact hkw kv hkv
        rw [if_neg (by rw [ha2]; exact Bool.false_ne_true)]
        rw [dictGet_dictSet]
        simp
    · simp only [Bool.not_eq_true] at hcg
      rw [if_pos (by rw [hcg]; simp)] at h2
      exact Except.noConfusion h2

/-- Witness for C3 (amended) at the ProjectTrigger counterexample input:
the literal `id` is present and defaulted to None. -/
theorem claim3_witness :
    hasKey [("_from_api", PyVal.bool false), ("gitlab", PyVal.conn 0),
      ("project_id", PyVal.int 1), ("id", PyVal.pynone)] "id" = true ∧
    dictGet [("_from_api", PyVal.bool false), ("gitlab", PyVal.conn 0),
      ("project_id", PyVal.int 1), ("id", PyVal.pynone)] "id" =
      some .pynone := by
  have h := claim3_id_attr classTable 0 "ProjectTrigger"
    [("project_id", .int 1)] []
    ⟨"ProjectTrigger", [("_from_api", .bool false), ("gitlab", .conn 0),
      ("project_id", .int 1), ("id", .pynone)]⟩
    ⟨"ProjectTrigger", [("_from_api", .bool true), ("gitlab", .conn 0),
      ("project_id", .int 1), ("id", .pynone)]⟩ rfl rfl
  exact ⟨h.1, h.2.2 rfl (by intro kv hkv; simp at hkv)
    (by intro m hm; simp [classTable] at hm)⟩

/-- Claim C8: star() on an already-starred project (server answers 304)
returns the very same instance unchanged; on 201 with a body it returns a
new Project built from that body. -/
theorem claim8_star (t : ClassTable) (conn : Nat) (o : PyObj) (r : Response)
    (hid : hasKey o.dict "id" = true) :
    (r.status_code = 304 → projectStar t conn o r = .ok o) ∧
    (r.status_code = 201 →
      projectStar t conn o r = objInitData t conn "Project" r.body []) := by
  constructor
  · intro h304
    rw [projectStar]
    rw [if_neg (by rw [hid]; simp)]
    rw [raiseErrorFromResponse, h304]
    rw [if_pos (by simp)]
    simp only [Bind.bind, Except.bind]
    rw [if_neg (by simp)]
    rfl
  · intro h201
    rw [projectStar]
    rw [if_neg (by rw [hid]; simp)]
    rw [raiseErrorFromResponse, h201]
    rw [if_pos (by simp)]
    simp only [Bind.bind, Except.bind]
    rw [if_pos (by simp)]
    rfl

/-- Witness for C8 at concrete responses: the 304 case returns the same
instance, the 201 case builds from the body. -/
theorem claim8_witness :
    projectStar classTable 0 ⟨"Project", [("id", .int 2)]⟩ ⟨304, .pynone⟩ =
      .ok ⟨"Project", [("id", .int 2)]⟩ ∧
    projectStar classTable 0 ⟨"Project", [("id", .int 2)]⟩
      ⟨201, .dict [("id", .int 2), ("name", .str "demo")]⟩ =
      objInitData classTable 0 "Project"
        (.dict [("id", .int 2), ("name", .str "demo")]) [] := by
  have h1 := claim8_star classTable 0 ⟨"Project", [("id", .int 2)]⟩
    ⟨304, .pynone⟩ rfl
  have h2 := claim8_star classTable 0 ⟨"Project", [("id", .int 2)]⟩
    ⟨201, .dict [("id", .int 2), ("name", .str "demo")]⟩ rfl
  exact ⟨h1.1 rfl, h2.2 rfl⟩

/-- Counterexample to C9 as stated: on the user resource the attribute
name `keys` is a declared manager attribute; a keyword argument of that
name does not survive on the constructed instance (the manager is
assigned after the keyword arguments), so the keyword value does not
overwrite the server value in the final state. -/
theorem claim9_counterexample :
    objInitFromFetch classTable 0 "User" [("keys", .int 1)]
      [("keys", .int 5)] =
      .ok ⟨"User", [("_from_api", .bool true), ("gitlab", .conn 0),
        ("keys", .manager "UserKeyManager"), ("id", .pynone)]⟩ ∧
    dictGet [("_from_api", PyVal.bool true), ("gitlab", PyVal.conn 0),
        ("keys", PyVal.manager "UserKeyManager"), ("id", PyVal.pynone)]
      "keys" ≠ some (.int 5) := by
  refine ⟨rfl, ?_⟩
  intro hcon
  injection hcon with h2
  exact PyVal.noConfusion h2

/-- Claim C9 (amended): keyword arguments are assigned onto the instance
after the response fields, so for a name present in both, the keyword
value overwrites the server value on the resulting instance - unless the
name is one of the type's declared manager attributes, which are
reassigned to manager objects afterwards. -/
theorem claim9_kwarg_overwrite (t : ClassTable) (conn : Nat) (cls : String)
    (resp kwargs : List (String × PyVal)) (k : String) (v : PyVal)
    (o : PyObj)
    (hresp : hasKey resp k = true)
    (hmem : (k, v) ∈ kwargs) (hnd : (kwargs.map Prod.fst).Nodup)
    (hmgr : ∀ m ∈ (t cls).managers, m.1 ≠ k)
    (h : objInitFromFetch t conn cls resp kwargs = .ok o) :
    dictGet o.dict k = some v := by
  rw [objInitFromFetch] at h
  by_cases hcg : canGetTruthy (t cls).canGet = true
  · rw [if_neg (by rw [hcg]; simp)] at h
    cases hconv : setFromDict t conn cls resp with
    | error e =>
      rw [hconv] at h
      exact Except.noConfusion h
    | ok conv =>
      rw [hconv] at h
      simp only [Bind.bind, Except.bind, Pure.pure, Except.pure,
        Except.ok.injEq] at h
      rw [← h]
      exact finishInit_get_kwarg t conn cls true conv kwargs k v hmem hnd
        hmgr
  · simp only [Bool.not_eq_true] at hcg
    rw [if_pos (by rw [hcg]; simp)] at h
    exact Except.noConfusion h

/-- Witness for C9 (amended): a non-manager attribute supplied both by the
response and as a keyword argument ends with the keyword value. -/
theorem claim9_witness :
    dictGet [("_from_api", PyVal.bool true), ("gitlab", PyVal.conn 0),
      ("username", PyVal.str "b"), ("id", PyVal.pynone),
      ("keys", PyVal.manager "UserKeyManager")] "username" =
      some (.str "b") := by
  have h := claim9_kwarg_overwrite classTable 0 "User"
    [("username", .str "a")] [("username", .str "b")] "username"
    (.str "b")
    ⟨"User", [("_from_api", .bool true), ("gitlab", .conn 0),
      ("username", .str "b"), ("id", .pynone),
      ("keys", .manager "UserKeyManager")]⟩
    rfl (List.mem_singleton.mpr rfl) (by simp)
    (by
      intro m hm
      rw [show (classTable "User").managers =
        [("keys", "UserKeyManager", [("user_id", "id")])] from rfl,
        List.mem_singleton] at hm
      subst hm
      decide) rfl
  exact h

/-- Claim C4: two instances compare equal exactly when they have the same
dynamic type and their attribute mappings restricted to non-manager,
non-underscore attributes (with `password` popped on both sides for the
user resource) are equal; different types are never equal, and `__ne__` is
the negation of `__eq__`. -/
theorem claim4_equality (x y : PyObj) :
    (objEq x y = true ↔ (x.cls = y.cls ∧
      (if x.cls = "User"
       then pyEqDict (dictDel (asDict x.dict) "password")
         (dictDel (asDict y.dict) "password")
       else pyEqDict (asDict x.dict) (asDict y.dict)) = true)) ∧
    (x.cls ≠ y.cls → objEq x y = false) ∧
    objNe x y = !objEq x y := by
  refine ⟨?_, ?_, rfl⟩
  · rw [objEq, gitlabEq]
    by_cases hu : (x.cls == "User") = true
    · have hxu : x.cls = "User" := by simpa using hu
      rw [if_pos hu, if_pos hxu]
      constructor
      · intro hand
        rw [Bool.and_eq_true] at hand
        exact ⟨(beq_iff_eq.mp hand.1).symm, hand.2⟩
      · intro hand
        rw [Bool.and_eq_true]
        exact ⟨beq_iff_eq.mpr hand.1.symm, hand.2⟩
    · have hxu : ¬x.cls = "User" := by simpa using hu
      rw [if_neg hu, if_neg hxu]
      constructor
      · intro hand
        rw [Bool.and_eq_true] at hand
        exact ⟨(beq_iff_eq.mp hand.1).symm, hand.2⟩
      · intro hand
        rw [Bool.and_eq_true]
        exact ⟨beq_iff_eq.mpr hand.1.symm, hand.2⟩
  · intro hne
    rw [objEq, gitlabEq]
    have hcc : (y.cls == x.cls) = false :=
      beq_eq_false_iff_ne.mpr (fun hcon => hne hcon.symm)
    by_cases hu : (x.cls == "User") = true
    · rw [if_pos hu, hcc]
      simp
    · rw [if_neg hu, hcc]
      simp

/-- Claim C5: every manager get/list/create/delete call resolves the
parent-derived parameters at call time from the parent's current heap
state (caller-supplied values taking precedence) and forwards the resolved
arguments to the class-level operation. -/
theorem claim5_parent_args (t : ClassTable) (conn : Nat)
    (heap : Nat → List (String × PyVal)) (m : Manager) (r : Nat)
    (kwargs args : List (String × PyVal)) (a pa : String)
    (id data : PyVal)
    (serverList : Except PyError (List PyObj))
    (serverGet : Except PyError (List (String × PyVal)))
    (href : m.parentRef = some r)
    (hnd : (m.args.map Prod.fst).Nodup)
    (hmem : (a, pa) ∈ m.args)
    (hok : setParentArgs heap m kwargs = .ok args) :
    (hasKey kwargs a = false → dictGet args a = dictGet (heap r) pa) ∧
    (hasKey kwargs a = true → dictGet args a = dictGet kwargs a) ∧
    managerListReq t heap m kwargs =
      (if !(t m.objCls).canList then throw .notImplemented
       else classListReq (t m.objCls) m.objCls args) ∧
    managerGet t conn heap m serverList serverGet id kwargs =
      (if !canGetTruthy (t m.objCls).canGet then throw .notImplemented
       else classGet t conn m.objCls serverList serverGet id args) ∧
    managerCreate t conn heap m data kwargs =
      (if !(t m.objCls).canCreate then throw .notImplemented
       else objInitData t conn m.objCls data args) ∧
    managerDelete t heap m id kwargs =
      (if !(t m.objCls).canDelete then throw .notImplemented
       else pure (.deleteReq m.objCls id args)) := by
  have hok2 : setParentArgsAux (heap r) m.args kwargs = .ok args := by
    rw [setParentArgs, href] at hok
    exact hok
  refine ⟨?_, ?_, ?_, ?_, ?_, ?_⟩
  · intro hout
    exact setParentArgsAux_default (heap r) m.args kwargs args a pa hnd
      hmem hout hok2
  · intro hin
    exact setParentArgsAux_preserves (heap r) m.args kwargs args a hin hok2
  · rw [managerListReq, hok]
    rfl
  · rw [managerGet, hok]
    rfl
  · rw [managerCreate, hok]
    rfl
  · rw [managerDelete, hok]
    rfl

/-- Witness for C5: a branches manager rooted at a project whose heap cell
holds id 7 (then mutated to 9), plus a caller override and the delete
routing. -/
theorem claim5_witness :
    dictGet [("project_id", PyVal.int 7)] "project_id" =
      dictGet ((fun x => [("id", PyVal.int 7)]) 0) "id" ∧
    dictGet [("project_id", PyVal.int 9)] "project_id" =
      dictGet ((fun x => [("id", PyVal.int 9)]) 0) "id" ∧
    dictGet [("project_id", PyVal.int 42)] "project_id" =
      dictGet [("project_id", PyVal.int 42)] "project_id" ∧
    managerDelete classTable (fun x => [("id", PyVal.int 7)])
      ⟨"ProjectBranch", some 0, [("project_id", "id")]⟩ (.str "m") [] =
      .ok (.deleteReq "ProjectBranch" (.str "m")
        [("project_id", .int 7)]) := by
  have h7 := claim5_parent_args classTable 0 (fun x => [("id", PyVal.int 7)])
    ⟨"ProjectBranch", some 0, [("project_id", "id")]⟩ 0 []
    [("project_id", .int 7)] "project_id" "id" (.str "m") .pynone
    (.ok []) (.error .needsNetwork) rfl (by simp)
    (List.mem_singleton.mpr rfl) rfl
  have h9 := claim5_parent_args classTable 0 (fun x => [("id", PyVal.int 9)])
    ⟨"ProjectBranch", some 0, [("project_id", "id")]⟩ 0 []
    [("project_id", .int 9)] "project_id" "id" (.str "m") .pynone
    (.ok []) (.error .needsNetwork) rfl (by simp)
    (List.mem_singleton.mpr rfl) rfl
  have h42 := claim5_parent_args classTable 0
    (fun x => [("id", PyVal.int 7)])
    ⟨"ProjectBranch", some 0, [("project_id", "id")]⟩ 0
    [("project_id", .int 42)] [("project_id", .int 42)] "project_id" "id"
    (.str "m") .pynone (.ok []) (.error .needsNetwork) rfl (by simp)
    (List.mem_singleton.mpr rfl) rfl
  exact ⟨h7.1 rfl, h9.1 rfl, h42.2.1 rfl, (h7.2.2.2.2.2).trans rfl⟩

/-- Witness for C4: different types are unequal; two users differing only
in password are equal, hence their `__ne__` is false. -/
theorem claim4_witness :
    objEq ⟨"User", [("a", .int 1)]⟩ ⟨"Group", [("a", .int 1)]⟩ = false ∧
    objNe ⟨"User", [("password", .str "p"), ("id", .int 1)]⟩
      ⟨"User", [("password", .str "q"), ("id", .int 1)]⟩ = false := by
  have h := claim4_equality
    ⟨"User", [("password", .str "p"), ("id", .int 1)]⟩
    ⟨"User", [("password", .str "q"), ("id", .int 1)]⟩
  have heq : objEq ⟨"User", [("password", .str "p"), ("id", .int 1)]⟩
      ⟨"User", [("password", .str "q"), ("id", .int 1)]⟩ = true := by
    apply h.1.mpr
    refine ⟨rfl, ?_⟩
    rw [if_pos rfl]
    simp [pyEqDict, pyEqItems, pyEq, asDict, keepAttr, isManagerVal,
      firstUnderscore, dictDel, dictGet, List.filter, List.find?]
  constructor
  · exact (claim4_equality ⟨"User", [("a", .int 1)]⟩
      ⟨"Group", [("a", .int 1)]⟩).2.1 (by decide)
  · rw [h.2.2, heq]
    rfl

/-- Claim C2: serializing an instance for create produces exactly the
declared required-create attributes, the declared optional-create
attribute, and whichever of the generic sudo/page/per_page parameters the
instance has; the undeclared attribute d is never serialized, and a
list-valued serialized attribute is flattened to a comma-joined string. -/
theorem claim2_create_serialization (a b c d : String)
    (selfAttrs out : List (String × PyVal))
    (hab : a ≠ b) (hac : a ≠ c) (hbc : b ≠ c)
    (hda : d ≠ a) (hdb : d ≠ b) (hdc : d ≠ c)
    (hdg : ¬ d ∈ (["sudo", "page", "per_page"] : List String))
    (ha : hasKey selfAttrs a = true) (hb : hasKey selfAttrs b = true)
    (hc2 : hasKey selfAttrs c = true) (hd : hasKey selfAttrs d = true)
    (h : dataForGitlab (createMeta a b c) selfAttrs [] false = .ok out) :
    (∀ k, hasKey out k = ((a == k) || (b == k) || (c == k) ||
      ((("sudo" == k) || ("page" == k) || ("per_page" == k)) &&
        hasKey selfAttrs k))) ∧
    hasKey out d = false ∧
    (∀ k l s2, hasKey out k = true → dictGet selfAttrs k = some (.list l) →
      joinComma l = some s2 → dictGet out k = some (.str s2)) := by
  rw [dataForGitlab, createMeta] at h
  simp only [Bool.false_and, Bool.false_eq_true, if_false,
    List.cons_append, List.nil_append, Bind.bind, Except.bind] at h
  cases hloop : dataLoop selfAttrs
      (a :: b :: c :: "sudo" :: "page" :: "per_page" :: []) [] with
  | error e =>
    rw [hloop] at h
    exact Except.noConfusion h
  | ok dataout =>
    rw [hloop] at h
    simp only [List.foldl_nil, Pure.pure, Except.pure,
      Except.ok.injEq] at h
    rw [h] at hloop
    have hchar : ∀ k, hasKey out k = ((a == k) || (b == k) || (c == k) ||
        ((("sudo" == k) || ("page" == k) || ("per_page" == k)) &&
          hasKey selfAttrs k)) := by
      intro k
      rw [dataLoop_hasKey selfAttrs _ [] out k hloop]
      simp only [hasKey_nil, Bool.false_or, List.any_cons, List.any_nil,
        Bool.or_false]
      by_cases h1 : (a == k) = true
      · have hak : a = k := by simpa using h1
        subst hak
        simp [ha]
      · simp only [Bool.not_eq_true] at h1
        by_cases h2 : (b == k) = true
        · have hbk : b = k := by simpa using h2
          subst hbk
          simp [hb]
        · simp only [Bool.not_eq_true] at h2
          by_cases h3 : (c == k) = true
          · have hck : c = k := by simpa using h3
            subst hck
            simp [hc2]
          · simp only [Bool.not_eq_true] at h3
            simp [h1, h2, h3, Bool.and_comm, Bool.or_assoc]
    refine ⟨hchar, ?_, ?_⟩
    · rw [hchar d]
      simp only [List.mem_cons, List.mem_singleton] at hdg
      have e1 : (a == d) = false := beq_eq_false_iff_ne.mpr (Ne.symm hda)
      have e2 : (b == d) = false := beq_eq_false_iff_ne.mpr (Ne.symm hdb)
      have e3 : (c == d) = false := beq_eq_false_iff_ne.mpr (Ne.symm hdc)
      have e4 : ("sudo" == d) = false := beq_eq_false_iff_ne.mpr
        (fun hcon => hdg (Or.inl hcon.symm))
      have e5 : ("page" == d) = false := beq_eq_false_iff_ne.mpr
        (fun hcon => hdg (Or.inr (Or.inl hcon.symm)))
      have e6 : ("per_page" == d) = false := beq_eq_false_iff_ne.mpr
        (fun hcon => hdg (Or.inr (Or.inr (Or.inl hcon.symm))))
      rw [e1, e2, e3, e4, e5, e6]
      rfl
    · intro k l s2 hk hsel hjoin
      have hany := dataLoop_hasKey selfAttrs _ [] out k hloop
      rw [hk] at hany
      rw [hasKey_nil] at hany
      simp only [Bool.false_or] at hany
      have hany2 := hany.symm
      rw [Bool.and_eq_true] at hany2
      refine dataLoop_get selfAttrs _ [] out k (.list l) (.str s2) hsel
        ?_ (Or.inl hany2.1) hloop
      rw [storeVal, hjoin]

/-- Witness for C2: required {a, b}, optional {c}, undeclared d, with a
list-valued b and a set page parameter. -/
theorem claim2_witness :
    hasKey [("a", PyVal.int 1), ("b", PyVal.str "x,y"),
      ("c", PyVal.str "z"), ("page", PyVal.int 2)] "d" = false ∧
    dictGet [("a", PyVal.int 1), ("b", PyVal.str "x,y"),
      ("c", PyVal.str "z"), ("page", PyVal.int 2)] "b" =
      some (.str "x,y") ∧
    hasKey [("a", PyVal.int 1), ("b", PyVal.str "x,y"),
      ("c", PyVal.str "z"), ("page", PyVal.int 2)] "page" = true := by
  have h := claim2_create_serialization "a" "b" "c" "d"
    [("a", .int 1), ("b", .list [.str "x", .str "y"]), ("c", .str "z"),
      ("d", .int 9), ("page", .int 2)]
    [("a", .int 1), ("b", .str "x,y"), ("c", .str "z"), ("page", .int 2)]
    (by decide) (by decide) (by decide) (by decide) (by decide)
    (by decide) (by decide) rfl rfl rfl rfl rfl
  refine ⟨h.2.1, h.2.2 "b" [.str "x", .str "y"] "x,y" rfl rfl rfl, ?_⟩
  rw [h.1 "page"]
  rfl

end PyGitlab
